import Mathlib

/-!
Verification development for the trade-opportunities service.

The definitions below are a shallow embedding of the program:
`app/config.py` (Settings), `app/rate_limit.py` (RateLimiter,
check_rate_limit), `app/search.py` (search_market_data,
get_fallback_data), `app/analysis.py` (analyze_with_gemini,
generate_mock_analysis, generate_markdown_report) and the
`/analyze/{sector}` handler of `app/main.py`.

External collaborators (the DuckDuckGo search call, the Gemini model
call, the JSON parser `json.loads`, the wall clock) are passed in as
explicit parameters: a search outcome is `Except Unit (List RawResult)`,
a model response is `Except Unit String`, the JSON parser `json.loads`
is a function `String → Option Json` over an explicit JSON value type
(so a successful parse can yield a payload of any shape, which the code
returns unvalidated), and times are natural numbers (seconds).
-/

/-- `app/config.py` `Settings`: configuration with its default values. -/
structure Settings where
  app_name : String
  gemini_api_key : Option String
  allowed_sectors : List String
  rate_limit_requests : Nat
  rate_limit_period : Nat
  secret_key : String
  algorithm : String
  access_token_expire_minutes : Nat

/-- `app/config.py` `settings = Settings()`: the default configuration. -/
def settings : Settings :=
  ⟨"Trade Opportunities API",
   none,
   ["pharmaceuticals", "technology", "agriculture",
    "automobile", "banking", "renewable-energy",
    "real-estate", "manufacturing", "retail"],
   10,
   60,
   "your-secret-key-change-in-production",
   "HS256",
   30⟩

/-- Python `str.lower()` restricted to ASCII, as used on sector names. -/
def str_lower (s : String) : String := String.mk (s.data.map Char.toLower)

/-- One step of Python `str.title()`: a letter is uppercased when the
previous character is not a letter, lowercased otherwise. -/
def titleAux : Bool → List Char → List Char
  | _, [] => []
  | prevAlpha, c :: cs =>
    (if c.isAlpha then (if prevAlpha then c.toLower else c.toUpper) else c)
      :: titleAux c.isAlpha cs

/-- Python `str.title()` restricted to ASCII letters. -/
def str_title (s : String) : String := String.mk (titleAux false s.data)

/-- `RateLimiter.requests`: the per-key timestamp store.  The Python
`defaultdict(list)` is a total map; a key never seen maps to `[]`. -/
abbrev RLState := String → List Nat

/-- The store of a freshly constructed `RateLimiter`. -/
def emptyState : RLState := fun _ => []

/-- `app/rate_limit.py` `RateLimiter.is_rate_limited`: purge timestamps
older than `now - period` from the key's list, then deny (leaving the
purged list) when the count reached the quota, else record `now` and
admit.  Returns the "limited" flag and the updated store. -/
def is_rate_limited (cfg : Settings) (st : RLState) (key : String) (now : Nat) :
    Bool × RLState :=
  if cfg.rate_limit_requests ≤
      ((st key).filter (fun t => now - t < cfg.rate_limit_period)).length then
    (true, Function.update st key
      ((st key).filter (fun t => now - t < cfg.rate_limit_period)))
  else
    (false, Function.update st key
      (((st key).filter (fun t => now - t < cfg.rate_limit_period)) ++ [now]))

/-- A sequence of rate-limit checks on one key at the given times,
returning the list of "limited" flags and the final store. -/
def runChecks (cfg : Settings) (st : RLState) (key : String) :
    List Nat → List Bool × RLState
  | [] => ([], st)
  | t :: ts =>
    ((is_rate_limited cfg st key t).1
        :: (runChecks cfg (is_rate_limited cfg st key t).2 key ts).1,
     (runChecks cfg (is_rate_limited cfg st key t).2 key ts).2)

/-- A sequence of rate-limit checks on arbitrary keys: each operation is
a key together with the time of the check. -/
def runMixed (cfg : Settings) : RLState → List (String × Nat) → RLState
  | st, [] => st
  | st, (k, t) :: ops => runMixed cfg (is_rate_limited cfg st k t).2 ops

/-- The error payload of a FastAPI `HTTPException`: status code, detail
message, and response headers. -/
structure HTTPError where
  status_code : Nat
  detail : String
  headers : List (String × String)
deriving DecidableEq

/-- `app/rate_limit.py` `check_rate_limit`: run the limiter and, when it
denies, produce the 429 error with the retry hint; otherwise no error.
Returns the optional error and the updated store. -/
def check_rate_limit (cfg : Settings) (st : RLState) (key : String) (now : Nat) :
    Option HTTPError × RLState :=
  if (is_rate_limited cfg st key now).1 then
    (some ⟨429,
      "Rate limit exceeded. Try again in " ++ toString cfg.rate_limit_period
        ++ " seconds.",
      [("Retry-After", toString cfg.rate_limit_period)]⟩,
     (is_rate_limited cfg st key now).2)
  else
    (none, (is_rate_limited cfg st key now).2)

/-- `app/models.py` `MarketData`. -/
structure MarketData where
  title : String
  source : String
  snippet : String
  date : String
  url : Option String
deriving DecidableEq

/-- A raw result record from the search provider: every field the code
reads with `result.get(...)` is optional. -/
structure RawResult where
  title : Option String
  source : Option String
  body : Option String
  date : Option String
  href : Option String

/-- The per-result normalization in `search_market_data`'s loop, with
the defaults passed to `result.get`. -/
def mkRecord (r : RawResult) : MarketData :=
  ⟨r.title.getD "", r.source.getD "Unknown", r.body.getD "",
   r.date.getD "Recent", some (r.href.getD "")⟩

/-- `app/search.py` `get_fallback_data`: hardcoded records for the three
known sectors, otherwise one generic templated record. -/
def get_fallback_data (sector : String) : List MarketData :=
  if sector = "pharmaceuticals" then
    [⟨"Indian Pharma Sector Growth Outlook 2024",
      "Industry Report",
      "Indian pharmaceutical sector expected to grow at 8-10% CAGR driven by exports and domestic demand.",
      "2024", some ""⟩]
  else if sector = "technology" then
    [⟨"India Tech Sector: AI and Digital Transformation",
      "Tech Analysis",
      "Technology sector in India seeing increased investment in AI, cloud computing, and digital services.",
      "2024", some ""⟩]
  else if sector = "agriculture" then
    [⟨"Agricultural Sector Modernization Trends",
      "Agri Report",
      "Precision farming and organic exports driving growth in Indian agriculture sector.",
      "2024", some ""⟩]
  else
    [⟨str_title sector ++ " Sector Analysis",
      "Market Intelligence",
      "Current trends and opportunities in the " ++ sector ++ " sector.",
      "2024", some ""⟩]

/-- `app/search.py` `search_market_data`: on a successful search, the
normalized results; on any exception, the fallback data. -/
def search_market_data (sector : String)
    (searchOutcome : Except Unit (List RawResult)) : List MarketData :=
  match searchOutcome with
  | Except.ok results => results.map mkRecord
  | Except.error _ => get_fallback_data sector

/-- `app/models.py` `TradeOpportunity`. -/
structure TradeOpportunity where
  opportunity : String
  reasoning : String
  risk_level : String
  time_horizon : String
deriving DecidableEq

/-- The analysis payload produced by `analyze_with_gemini` (the JSON
object shape requested from the model, also the shape of the mock). -/
structure Analysis where
  summary : String
  market_trends : List String
  trade_opportunities : List TradeOpportunity
  risks : List String
deriving DecidableEq

/-- `app/analysis.py` `generate_mock_analysis`: the deterministic mock
analysis templated with the sector name (the market data is unused). -/
def generate_mock_analysis (sector : String) (_market_data : List MarketData) :
    Analysis :=
  ⟨"The " ++ sector ++ " sector in India shows promising growth potential with increasing digital adoption and government support.",
   ["Growing demand in " ++ sector ++ " services",
    "Increased foreign investment",
    "Government policy support",
    "Technology integration",
    "Export opportunities"],
   [⟨"Invest in leading " ++ sector ++ " companies",
     "Market leaders showing consistent growth and innovation",
     "medium", "medium-term"⟩,
    ⟨"Sector-specific ETFs",
     "Diversified exposure with lower risk",
     "low", "long-term"⟩],
   ["Regulatory changes",
    "Market volatility",
    "Global economic factors",
    "Competition intensity"]⟩

/-- Index of the first occurrence of `sep` in `s` (`str.find` / the scan
underlying Python's `in` and `split`). -/
def findSub (sep : List Char) : List Char → Option Nat
  | [] => if sep.isPrefixOf ([] : List Char) then some 0 else none
  | c :: cs =>
    if sep.isPrefixOf (c :: cs) then some 0
    else (findSub sep cs).map (fun n => n + 1)

/-- Python's `sep in s` containment test. -/
def listContains (sep s : List Char) : Bool := (findSub sep s).isSome

/-- What follows the first occurrence of `sep` in `s` (empty when `sep`
does not occur). -/
def afterFirstL (sep s : List Char) : List Char :=
  match findSub sep s with
  | some i => s.drop (i + sep.length)
  | none => []

/-- The part of `s` before the first occurrence of `sep` (`s` itself
when `sep` does not occur): Python's `s.split(sep)[0]`. -/
def upToFirstL (sep s : List Char) : List Char :=
  match findSub sep s with
  | some i => s.take i
  | none => s

/-- The characters of the markdown fence marker. -/
def fenceL : List Char := "```".data

/-- The characters of the JSON-tagged fence marker. -/
def jsonFenceL : List Char := "```json".data

/-- The fence-stripping heuristic of `analyze_with_gemini` (lines 57-64
of `app/analysis.py`): Python's `text.split(sep)[1]` is the segment
between the first and second occurrence of `sep`, i.e.
`upToFirstL sep (afterFirstL sep text)`, and `.split(sep)[0]` is
`upToFirstL sep`. -/
def extract_jsonL (text : List Char) : List Char :=
  if listContains jsonFenceL text then
    upToFirstL fenceL (upToFirstL jsonFenceL (afterFirstL jsonFenceL text))
  else if listContains fenceL text then
    upToFirstL fenceL (upToFirstL fenceL (afterFirstL fenceL text))
  else text

/-- String-level wrapper of `extract_jsonL`. -/
def extract_json (text : String) : String := String.mk (extract_jsonL text.data)

/-- Modelled from the spec: the contents of the first fenced block
opened by `tag` — the text after the first occurrence of `tag`, up to
the next fence marker — or `none` when `tag` does not occur. -/
def block_contents (tag s : List Char) : Option (List Char) :=
  if listContains tag s then some (upToFirstL fenceL (afterFirstL tag s))
  else none

/-- Modelled from the spec: "if the text contains a fenced block tagged
as JSON, use its contents; else if it contains any fenced block, use the
contents of the first such block; else use the raw text". -/
def spec_extract_jsonL (text : List Char) : List Char :=
  match block_contents jsonFenceL text with
  | some c => c
  | none =>
    match block_contents fenceL text with
    | some c => c
    | none => text

/-- The value space of `json.loads` output (numbers restricted to
integers; no claim depends on numeric payloads). -/
inductive Json where
  | null
  | bool (b : Bool)
  | num (n : Int)
  | str (s : String)
  | arr (elems : List Json)
  | obj (fields : List (String × Json))

/-- Python `dict` key lookup on a JSON object's field list. -/
def json_lookup (fields : List (String × Json)) (key : String) : Option Json :=
  (fields.find? (fun p => p.1 == key)).map (fun p => p.2)

/-- A JSON value read as a string, when it is one. -/
def json_as_str : Json → Option String
  | Json.str s => some s
  | _ => none

/-- A JSON value read as a list of strings, when it is one. -/
def json_as_str_list : Json → Option (List String)
  | Json.arr xs => xs.mapM json_as_str
  | _ => none

/-- A JSON value read as a trade opportunity: an object carrying the
four string fields `TradeOpportunity(**opp)` requires. -/
def json_as_opp : Json → Option TradeOpportunity
  | Json.obj fields =>
    match json_lookup fields "opportunity", json_lookup fields "reasoning",
        json_lookup fields "risk_level", json_lookup fields "time_horizon" with
    | some (Json.str o), some (Json.str r), some (Json.str rl),
        some (Json.str th) => some ⟨o, r, rl, th⟩
    | _, _, _, _ => none
  | _ => none

/-- A JSON value read as a list of trade opportunities, when it is one. -/
def json_as_opps : Json → Option (List TradeOpportunity)
  | Json.arr xs => xs.mapM json_as_opp
  | _ => none

/-- The response schema `analyze_with_gemini`'s prompt requests: the
reading of a JSON payload as an `Analysis` record, `none` when the
payload does not conform.  The code itself never applies this check. -/
def json_to_analysis (j : Json) : Option Analysis :=
  match j with
  | Json.obj fields =>
    match json_lookup fields "summary", json_lookup fields "market_trends",
        json_lookup fields "trade_opportunities",
        json_lookup fields "risks" with
    | some s, some mt, some tops, some rk =>
      match json_as_str s, json_as_str_list mt, json_as_opps tops,
          json_as_str_list rk with
      | some s2, some mt2, some to2, some rk2 => some ⟨s2, mt2, to2, rk2⟩
      | _, _, _, _ => none
    | _, _, _, _ => none
  | _ => none

/-- The dict a `TradeOpportunity` record denotes. -/
def opp_to_json (o : TradeOpportunity) : Json :=
  Json.obj [("opportunity", Json.str o.opportunity),
    ("reasoning", Json.str o.reasoning),
    ("risk_level", Json.str o.risk_level),
    ("time_horizon", Json.str o.time_horizon)]

/-- The dict an `Analysis` record denotes — in particular the dict
literal `generate_mock_analysis` builds in the source. -/
def analysis_to_json (a : Analysis) : Json :=
  Json.obj [("summary", Json.str a.summary),
    ("market_trends", Json.arr (a.market_trends.map Json.str)),
    ("trade_opportunities", Json.arr (a.trade_opportunities.map opp_to_json)),
    ("risks", Json.arr (a.risks.map Json.str))]

/-- `app/analysis.py` `analyze_with_gemini`: no credential, a failed
model call, or a failed `json.loads` of the extracted payload all yield
the mock analysis dict; a successfully parsed payload is returned as is,
with no validation against the requested schema. -/
def analyze_with_gemini (cfg : Settings) (parse : String → Option Json)
    (sector : String) (market_data : List MarketData)
    (resp : Except Unit String) : Json :=
  match cfg.gemini_api_key with
  | none => analysis_to_json (generate_mock_analysis sector market_data)
  | some _ =>
    match resp with
    | Except.error _ => analysis_to_json (generate_mock_analysis sector market_data)
    | Except.ok text =>
      match parse (extract_json text) with
      | none => analysis_to_json (generate_mock_analysis sector market_data)
      | some a => a

/-- The analysis step as seen by the orchestration model of
`analyze_sector`, restricted to parses that yield schema-conforming
payloads (the regime in which `main.py` assembles a response rather than
failing over to its 500 handler).  `analyze_typed_view` below proves it
is exactly `analyze_with_gemini` composed with `analysis_to_json`. -/
def analyze_with_gemini_typed (cfg : Settings)
    (parse : String → Option Analysis) (sector : String)
    (market_data : List MarketData) (resp : Except Unit String) : Analysis :=
  match cfg.gemini_api_key with
  | none => generate_mock_analysis sector market_data
  | some _ =>
    match resp with
    | Except.error _ => generate_mock_analysis sector market_data
    | Except.ok text =>
      match parse (extract_json text) with
      | none => generate_mock_analysis sector market_data
      | some a => a

/-- The default configuration with a generative-model credential set, as
when the GEMINI_API_KEY environment variable is present. -/
def settingsWithKey : Settings :=
  ⟨"Trade Opportunities API",
   some "test-key",
   ["pharmaceuticals", "technology", "agriculture",
    "automobile", "banking", "renewable-energy",
    "real-estate", "manufacturing", "retail"],
   10,
   60,
   "your-secret-key-change-in-production",
   "HS256",
   30⟩

/-- One "Key Market Information" entry of the markdown report. -/
def mdNewsEntry (d : MarketData) : String :=
  "### " ++ d.title ++ "\n"
    ++ "**Source:** " ++ d.source ++ " | **Date:** " ++ d.date ++ "\n"
    ++ d.snippet ++ "\n\n"

/-- One market-trend bullet of the markdown report. -/
def mdTrendLine (t : String) : String := "- " ++ t ++ "\n"

/-- One numbered trade-opportunity entry of the markdown report. -/
def mdOppEntry (i : Nat) (o : TradeOpportunity) : String :=
  "### Opportunity " ++ toString i ++ ": " ++ o.opportunity ++ "\n"
    ++ "- **Reasoning:** " ++ o.reasoning ++ "\n"
    ++ "- **Risk Level:** " ++ str_title o.risk_level ++ "\n"
    ++ "- **Time Horizon:** " ++ o.time_horizon ++ "\n\n"

/-- One risk bullet of the markdown report. -/
def mdRiskLine (r : String) : String := "- ⚠️ " ++ r ++ "\n"

/-- `app/analysis.py` `generate_markdown_report`; the generation
timestamp (`datetime.now()` formatted) is a parameter. -/
def generate_markdown_report (sector : String) (analysis : Analysis)
    (market_data : List MarketData) (timestamp : String) : String :=
  "# Market Analysis Report: " ++ str_title sector ++ " Sector\n"
    ++ "**Generated:** " ++ timestamp ++ "\n\n"
    ++ "## Executive Summary\n" ++ analysis.summary ++ "\n\n"
    ++ "## Market Trends\n"
    ++ String.join (analysis.market_trends.map mdTrendLine)
    ++ "\n## Key Market Information\n"
    ++ String.join ((market_data.take 5).map mdNewsEntry)
    ++ "## Trade Opportunities\n"
    ++ String.join ((analysis.trade_opportunities.enumFrom 1).map
        (fun p => mdOppEntry p.1 p.2))
    ++ "## Potential Risks\n"
    ++ String.join (analysis.risks.map mdRiskLine)
    ++ "\n---\n"
    ++ "*Report generated by Trade Opportunities API. This is for informational purposes only.*"

/-- `app/models.py` `AnalysisResponse`. -/
structure AnalysisResponse where
  sector : String
  timestamp : String
  summary : String
  market_trends : List String
  key_news : List MarketData
  trade_opportunities : List TradeOpportunity
  risks : List String
  markdown_report : String

/-- The fetch → analyze → render → assemble pipeline inside
`analyze_sector` of `app/main.py` (steps 1-4). -/
def analyze_sector_pipeline (cfg : Settings) (sector : String)
    (searchOutcome : Except Unit (List RawResult))
    (parse : String → Option Analysis) (resp : Except Unit String)
    (ts : String) : AnalysisResponse :=
  ⟨sector, ts,
   (analyze_with_gemini_typed cfg parse sector (search_market_data sector searchOutcome) resp).summary,
   (analyze_with_gemini_typed cfg parse sector (search_market_data sector searchOutcome) resp).market_trends,
   (search_market_data sector searchOutcome).take 5,
   (analyze_with_gemini_typed cfg parse sector (search_market_data sector searchOutcome) resp).trade_opportunities,
   (analyze_with_gemini_typed cfg parse sector (search_market_data sector searchOutcome) resp).risks,
   generate_markdown_report sector
     (analyze_with_gemini_typed cfg parse sector (search_market_data sector searchOutcome) resp)
     (search_market_data sector searchOutcome) ts⟩

/-- The `/analyze/{sector}` handler of `app/main.py`: lowercase the
sector, reject unsupported sectors (400), reject failed authentication
(401), consult the rate limiter (429 on denial), else run the pipeline.
The authentication outcome is a boolean parameter; the rate-limit key is
`username + "_" + client host`.  Returns the response or error, and the
rate-limiter store after the request. -/
def analyze_sector_endpoint (cfg : Settings) (st : RLState) (sector : String)
    (authOK : Bool) (username clientHost : String) (now : Nat)
    (searchOutcome : Except Unit (List RawResult))
    (parse : String → Option Analysis) (resp : Except Unit String)
    (ts : String) : Except HTTPError AnalysisResponse × RLState :=
  if cfg.allowed_sectors.contains (str_lower sector) then
    if authOK then
      match check_rate_limit cfg st (username ++ "_" ++ clientHost) now with
      | (some e, st2) => (Except.error e, st2)
      | (none, st2) =>
        (Except.ok (analyze_sector_pipeline cfg (str_lower sector)
          searchOutcome parse resp ts), st2)
    else (Except.error ⟨401, "Invalid authentication credentials", []⟩, st)
  else
    (Except.error ⟨400,
      "Sector not supported. Allowed sectors: "
        ++ String.intercalate ", " cfg.allowed_sectors, []⟩, st)

/-- A default trade opportunity, used only for list indexing via `getD`
in theorem statements. -/
def defaultOpp : TradeOpportunity := ⟨"", "", "", ""⟩

/-- A store whose every key holds ten timestamps at time 0. -/
def fullState : RLState := fun _ => [0,0,0,0,0,0,0,0,0,0]

theorem is_rate_limited_frame (cfg : Settings) (st : RLState) (key : String)
    (now : Nat) (k : String) (h : k ≠ key) :
    (is_rate_limited cfg st key now).2 k = st k := by
  unfold is_rate_limited
  split
  · exact Function.update_noteq h _ _
  · exact Function.update_noteq h _ _

theorem runChecks_frame (cfg : Settings) (key : String) (ts : List Nat) :
    ∀ (st : RLState) (k : String), k ≠ key →
      (runChecks cfg st key ts).2 k = st k := by
  induction ts with
  | nil => intro st k _; rfl
  | cons t ts ih =>
    intro st k h
    calc (runChecks cfg st key (t :: ts)).2 k
        = (runChecks cfg (is_rate_limited cfg st key t).2 key ts).2 k := rfl
      _ = (is_rate_limited cfg st key t).2 k :=
          ih (is_rate_limited cfg st key t).2 k h
      _ = st k := is_rate_limited_frame cfg st key t k h

theorem runChecks_append (cfg : Settings) (key : String) (l1 l2 : List Nat) :
    ∀ st : RLState,
      (runChecks cfg st key (l1 ++ l2)).1
        = (runChecks cfg st key l1).1
            ++ (runChecks cfg (runChecks cfg st key l1).2 key l2).1
      ∧ (runChecks cfg st key (l1 ++ l2)).2
        = (runChecks cfg (runChecks cfg st key l1).2 key l2).2 := by
  induction l1 with
  | nil => intro st; exact ⟨rfl, rfl⟩
  | cons t l1 ih =>
    intro st
    refine ⟨?_, ?_⟩
    · show (is_rate_limited cfg st key t).1
          :: (runChecks cfg (is_rate_limited cfg st key t).2 key (l1 ++ l2)).1 = _
      rw [(ih (is_rate_limited cfg st key t).2).1]
      rfl
    · show (runChecks cfg (is_rate_limited cfg st key t).2 key (l1 ++ l2)).2 = _
      rw [(ih (is_rate_limited cfg st key t).2).2]
      rfl

theorem runChecks_admits (cfg : Settings) (key : String) (lo hi : Nat)
    (hW : hi ≤ lo + cfg.rate_limit_period) :
    ∀ (ts : List Nat) (st : RLState),
      (∀ p ∈ st key, lo ≤ p) →
      (∀ t ∈ ts, lo ≤ t ∧ t < hi) →
      (st key).length + ts.length ≤ cfg.rate_limit_requests →
      (runChecks cfg st key ts).1 = List.replicate ts.length false
      ∧ (runChecks cfg st key ts).2 key = st key ++ ts := by
  intro ts
  induction ts with
  | nil => intro st _ _ _; exact ⟨rfl, by simp [runChecks]⟩
  | cons t ts ih =>
    intro st hprev hts hlen
    have ht := hts t (List.mem_cons_self t ts)
    have hkeep : (st key).filter (fun p => t - p < cfg.rate_limit_period)
        = st key := by
      apply List.filter_eq_self.mpr
      intro p hp
      have hlo := hprev p hp
      have hin : t - p < cfg.rate_limit_period := by omega
      simpa using hin
    have hlt : ¬ cfg.rate_limit_requests ≤ (st key).length := by
      simp only [List.length_cons] at hlen
      omega
    have hstep : is_rate_limited cfg st key t
        = (false, Function.update st key (st key ++ [t])) := by
      unfold is_rate_limited
      rw [hkeep, if_neg hlt]
    have hkey2 : Function.update st key (st key ++ [t]) key = st key ++ [t] :=
      Function.update_same key _ st
    have hprev2 : ∀ p ∈ Function.update st key (st key ++ [t]) key, lo ≤ p := by
      rw [hkey2]
      intro p hp
      rcases List.mem_append.mp hp with h1 | h1
      · exact hprev p h1
      · rcases List.mem_singleton.mp h1 with rfl
        exact ht.1
    have hts2 : ∀ x ∈ ts, lo ≤ x ∧ x < hi :=
      fun x hx => hts x (List.mem_cons_of_mem t hx)
    have hlen2 : (Function.update st key (st key ++ [t]) key).length + ts.length
        ≤ cfg.rate_limit_requests := by
      rw [hkey2]
      simp only [List.length_append, List.length_cons, List.length_nil,
        List.length_singleton] at hlen ⊢
      omega
    have ih2 := ih (Function.update st key (st key ++ [t])) hprev2 hts2 hlen2
    refine ⟨?_, ?_⟩
    · calc (runChecks cfg st key (t :: ts)).1
          = false :: (runChecks cfg (Function.update st key (st key ++ [t]))
              key ts).1 := by
            show (is_rate_limited cfg st key t).1
              :: (runChecks cfg (is_rate_limited cfg st key t).2 key ts).1 = _
            rw [hstep]
      _ = false :: List.replicate ts.length false := by rw [ih2.1]
      _ = List.replicate (t :: ts).length false := by
            simp [List.replicate_succ]
    · calc (runChecks cfg st key (t :: ts)).2 key
          = (runChecks cfg (Function.update st key (st key ++ [t]))
              key ts).2 key := by
            show (runChecks cfg (is_rate_limited cfg st key t).2 key ts).2 key = _
            rw [hstep]
      _ = Function.update st key (st key ++ [t]) key ++ ts := ih2.2
      _ = st key ++ t :: ts := by rw [hkey2]; simp

/-- C1: for any key starting with no timestamps, eleven checks inside one
60-second window admit the first ten and deny the eleventh; the denied
attempt is not recorded (the key's stored sequence is exactly the ten
admitted times); and a later check at least 60 seconds after every
admitted time is admitted again (defaults N = 10, W = 60). -/
theorem rate_limit_window_cycle (key : String) (lo : Nat) (ts : List Nat)
    (t10 tLater : Nat) (hlen : ts.length = 10)
    (hts : ∀ t ∈ ts, lo ≤ t ∧ t < lo + 60)
    (h10 : lo ≤ t10 ∧ t10 < lo + 60)
    (hrec : ∀ t ∈ ts, t + 60 ≤ tLater) :
    (runChecks settings emptyState key (ts ++ [t10])).1
      = List.replicate 10 false ++ [true]
    ∧ (runChecks settings emptyState key (ts ++ [t10])).2 key = ts
    ∧ (is_rate_limited settings
        (runChecks settings emptyState key (ts ++ [t10])).2 key tLater).1
        = false := by
  have hper : settings.rate_limit_period = 60 := rfl
  have hreq : settings.rate_limit_requests = 10 := rfl
  have hadm := runChecks_admits settings key lo (lo + 60)
    (by rw [hper]) ts emptyState
    (by intro p hp; simp [emptyState] at hp)
    hts
    (by simp [emptyState, hreq, hlen])
  have happ := runChecks_append settings key ts [t10] emptyState
  have hst1 : (runChecks settings emptyState key ts).2 key = ts := by
    rw [hadm.2]; simp [emptyState]
  have hkeep : ((runChecks settings emptyState key ts).2 key).filter
      (fun p => t10 - p < settings.rate_limit_period) = ts := by
    rw [hst1]
    apply List.filter_eq_self.mpr
    intro p hp
    have hlo := (hts p hp).1
    have hin : t10 - p < settings.rate_limit_period := by
      rw [hper]; omega
    simpa using hin
  have hcond : settings.rate_limit_requests ≤ ts.length := by
    rw [hreq, hlen]
  have hstep : is_rate_limited settings
      (runChecks settings emptyState key ts).2 key t10
      = (true, Function.update (runChecks settings emptyState key ts).2 key ts) := by
    unfold is_rate_limited
    rw [hkeep, if_pos hcond]
  have hst2 : (runChecks settings emptyState key (ts ++ [t10])).2 key = ts := by
    rw [happ.2]
    show (is_rate_limited settings (runChecks settings emptyState key ts).2
      key t10).2 key = ts
    rw [hstep]
    exact Function.update_same key ts (runChecks settings emptyState key ts).2
  refine ⟨?_, hst2, ?_⟩
  · rw [happ.1, hadm.1, hlen]
    show List.replicate 10 false
      ++ [(is_rate_limited settings (runChecks settings emptyState key ts).2
            key t10).1] = _
    rw [hstep]
  · have hempty : ((runChecks settings emptyState key (ts ++ [t10])).2 key).filter
        (fun p => tLater - p < settings.rate_limit_period) = [] := by
      rw [hst2]
      apply List.filter_eq_nil_iff.mpr
      intro p hp
      have hr := hrec p hp
      simp only [decide_eq_true_eq, hper]
      omega
    unfold is_rate_limited
    rw [hempty, if_neg (by simp [hreq])]

/-- C1 witness: eleven checks at seconds 0..10 for one key, then a check
at second 69. -/
theorem rate_limit_window_cycle_witness :
    (runChecks settings emptyState "guest_127.0.0.1"
        ([0,1,2,3,4,5,6,7,8,9] ++ [10])).1
      = List.replicate 10 false ++ [true]
    ∧ (runChecks settings emptyState "guest_127.0.0.1"
        ([0,1,2,3,4,5,6,7,8,9] ++ [10])).2 "guest_127.0.0.1"
        = [0,1,2,3,4,5,6,7,8,9]
    ∧ (is_rate_limited settings
        (runChecks settings emptyState "guest_127.0.0.1"
          ([0,1,2,3,4,5,6,7,8,9] ++ [10])).2 "guest_127.0.0.1" 69).1 = false :=
  rate_limit_window_cycle "guest_127.0.0.1" 0 [0,1,2,3,4,5,6,7,8,9] 10 69
    (by decide) (by decide) (by decide) (by decide)

/-- C4: a rate-limit check on key A never changes the stored timestamp
sequence of a distinct key B — for a single check and for any sequence
of checks on A — and after any sequence of checks on A, a check on B has
the same outcome it would have had without them, so exhausting A's quota
never denies B. -/
theorem rate_limit_key_isolation (A B : String) (hAB : A ≠ B) (st : RLState)
    (times : List Nat) (now singleNow : Nat) :
    (is_rate_limited settings st A singleNow).2 B = st B
    ∧ (runChecks settings st A times).2 B = st B
    ∧ (is_rate_limited settings (runChecks settings st A times).2 B now).1
        = (is_rate_limited settings st B now).1 := by
  have hframe : (runChecks settings st A times).2 B = st B :=
    runChecks_frame settings A times st B (Ne.symm hAB)
  refine ⟨is_rate_limited_frame settings st A singleNow B (Ne.symm hAB),
    hframe, ?_⟩
  unfold is_rate_limited
  rw [hframe]
  split <;> rfl

/-- C4 witness: twelve checks at time 0 exhaust key "guest_a"; key
"trader_b" is untouched and its own check outcome is unchanged. -/
theorem rate_limit_key_isolation_witness :
    (is_rate_limited settings emptyState "guest_a" 5).2 "trader_b"
      = emptyState "trader_b"
    ∧ (runChecks settings emptyState "guest_a"
        [0,0,0,0,0,0,0,0,0,0,0,0]).2 "trader_b" = emptyState "trader_b"
    ∧ (is_rate_limited settings
        (runChecks settings emptyState "guest_a"
          [0,0,0,0,0,0,0,0,0,0,0,0]).2 "trader_b" 0).1
        = (is_rate_limited settings emptyState "trader_b" 0).1 :=
  rate_limit_key_isolation "guest_a" "trader_b" (by decide) emptyState
    [0,0,0,0,0,0,0,0,0,0,0,0] 0 5

/-- C7: whenever the limiter denies, `check_rate_limit` produces the 429
rejection whose detail message says "try again in 60 seconds" and whose
Retry-After header is "60" — the configured window (default W = 60). -/
theorem rate_limit_denial_retry_after (st : RLState) (key : String) (now : Nat)
    (h : (is_rate_limited settings st key now).1 = true) :
    check_rate_limit settings st key now
      = (some ⟨429, "Rate limit exceeded. Try again in 60 seconds.",
          [("Retry-After", "60")]⟩,
         (is_rate_limited settings st key now).2) := by
  unfold check_rate_limit
  rw [if_pos h]
  rfl

/-- C7 witness: a key with ten stored timestamps at the current time is
denied with the 429 payload. -/
theorem rate_limit_denial_retry_after_witness :
    check_rate_limit settings fullState "guest_127.0.0.1" 0
      = (some ⟨429, "Rate limit exceeded. Try again in 60 seconds.",
          [("Retry-After", "60")]⟩,
         (is_rate_limited settings fullState "guest_127.0.0.1" 0).2) :=
  rate_limit_denial_retry_after fullState "guest_127.0.0.1" 0 (by decide)

theorem is_rate_limited_bound (cfg : Settings) (st : RLState) (key : String)
    (now : Nat) (h : ∀ k, (st k).length ≤ cfg.rate_limit_requests) :
    ∀ k, ((is_rate_limited cfg st key now).2 k).length
        ≤ cfg.rate_limit_requests := by
  intro k
  by_cases hc : cfg.rate_limit_requests ≤
      ((st key).filter (fun t => now - t < cfg.rate_limit_period)).length
  · have hstep : (is_rate_limited cfg st key now).2
        = Function.update st key
            ((st key).filter (fun t => now - t < cfg.rate_limit_period)) := by
      unfold is_rate_limited
      rw [if_pos hc]
    rw [hstep]
    by_cases hk : k = key
    · subst hk
      rw [Function.update_same]
      exact le_trans (List.length_filter_le _ _) (h k)
    · rw [Function.update_noteq hk]
      exact h k
  · have hstep : (is_rate_limited cfg st key now).2
        = Function.update st key
            (((st key).filter (fun t => now - t < cfg.rate_limit_period))
              ++ [now]) := by
      unfold is_rate_limited
      rw [if_neg hc]
    rw [hstep]
    by_cases hk : k = key
    · subst hk
      rw [Function.update_same]
      simp only [List.length_append, List.length_singleton]
      omega
    · rw [Function.update_noteq hk]
      exact h k

theorem runMixed_bound (cfg : Settings) :
    ∀ (ops : List (String × Nat)) (st : RLState),
      (∀ k, (st k).length ≤ cfg.rate_limit_requests) →
      ∀ k, ((runMixed cfg st ops) k).length ≤ cfg.rate_limit_requests := by
  intro ops
  induction ops with
  | nil => intro st h k; exact h k
  | cons op ops ih =>
    intro st h k
    exact ih (is_rate_limited cfg st op.1 op.2).2
      (is_rate_limited_bound cfg st op.1 op.2 h) k

/-- C10: starting from the empty store, after any sequence of checks on
any keys, no key ever holds more than the configured quota of timestamps
(N = 10 by default): a check appends only when fewer than N remain after
purging. -/
theorem rate_limit_state_bounded (cfg : Settings) (ops : List (String × Nat))
    (k : String) :
    ((runMixed cfg emptyState ops) k).length ≤ cfg.rate_limit_requests :=
  runMixed_bound cfg ops emptyState (fun _ => Nat.zero_le _) k

/-- C2 counterexample: a search that succeeds with zero results makes
`search_market_data` return the empty sequence — the fallback only
replaces the result on an exception, so "never returns an empty
sequence" fails. -/
theorem fetch_empty_on_empty_success :
    search_market_data "technology" (Except.ok []) = [] := rfl

/-- C2 (amended): on every failing search, `search_market_data` returns
the fallback, which is never empty — hardcoded records for the three
known sectors, one generic templated record naming the sector otherwise;
a successful search is returned as mapped, and may be empty. -/
theorem fetch_failure_fallback (sector : String) (e : Unit) :
    search_market_data sector (Except.error e) = get_fallback_data sector
    ∧ get_fallback_data sector ≠ []
    ∧ (sector ∉ ["pharmaceuticals", "technology", "agriculture"] →
        get_fallback_data sector
          = [⟨str_title sector ++ " Sector Analysis", "Market Intelligence",
              "Current trends and opportunities in the " ++ sector ++ " sector.",
              "2024", some ""⟩]) := by
  refine ⟨rfl, ?_, ?_⟩
  · unfold get_fallback_data
    repeat' split
    all_goals simp
  · intro h
    simp only [List.mem_cons, List.not_mem_nil, or_false, not_or] at h
    unfold get_fallback_data
    rw [if_neg h.1, if_neg h.2.1, if_neg h.2.2]

/-- C2 witness: for the unrecognized sector "banking" (no hardcoded
fallback entry), a failed search yields the single generic record. -/
theorem fetch_failure_fallback_witness :
    search_market_data "banking" (Except.error ()) = get_fallback_data "banking"
    ∧ get_fallback_data "banking" ≠ []
    ∧ get_fallback_data "banking"
        = [⟨str_title "banking" ++ " Sector Analysis", "Market Intelligence",
            "Current trends and opportunities in the " ++ "banking" ++ " sector.",
            "2024", some ""⟩] :=
  ⟨(fetch_failure_fallback "banking" ()).1,
   (fetch_failure_fallback "banking" ()).2.1,
   (fetch_failure_fallback "banking" ()).2.2 (by decide)⟩

theorem analyze_typed_view (cfg : Settings) (parse : String → Option Analysis)
    (sector : String) (md : List MarketData) (resp : Except Unit String) :
    analyze_with_gemini cfg (fun s => (parse s).map analysis_to_json)
        sector md resp
      = analysis_to_json (analyze_with_gemini_typed cfg parse sector md resp) := by
  unfold analyze_with_gemini analyze_with_gemini_typed
  cases cfg.gemini_api_key with
  | none => rfl
  | some k =>
    cases resp with
    | error e => rfl
    | ok text =>
      cases hp : parse (extract_json text) with
      | none => simp [hp]
      | some a => simp [hp]

/-- C3 counterexample: with a credential configured, a model response
whose JSON parses successfully to a payload that does not conform to the
requested schema is returned unvalidated instead of the mock — so
"schema failure yields the mock" fails on the code. -/
theorem analyze_schema_passthrough :
    analyze_with_gemini settingsWithKey
        (fun _ => some (Json.obj [("summary", Json.str "x")]))
        "technology" [] (Except.ok "not json")
      = Json.obj [("summary", Json.str "x")]
    ∧ json_to_analysis (Json.obj [("summary", Json.str "x")]) = none
    ∧ analyze_with_gemini settingsWithKey
        (fun _ => some (Json.obj [("summary", Json.str "x")]))
        "technology" [] (Except.ok "not json")
      ≠ analysis_to_json (generate_mock_analysis "technology" []) := by
  refine ⟨rfl, rfl, ?_⟩
  intro h
  have h2 : Json.obj [("summary", Json.str "x")]
      = analysis_to_json (generate_mock_analysis "technology" []) :=
    Eq.trans (by rfl) h
  simp [analysis_to_json, generate_mock_analysis] at h2

/-- C3 (amended): with no credential, a failed model call, or a failed
JSON parse of the extracted payload, `analyze_with_gemini` returns the
mock analysis dict — whose record has exactly 5 trends, 2 opportunities
(first medium risk and medium-term, second low risk and long-term), 4
risks, and a summary naming the sector — while a successfully parsed
payload is returned as is, with no schema validation. -/
theorem analyze_failure_mock (cfg : Settings) (parse : String → Option Json)
    (sector : String) (md : List MarketData) :
    (∀ resp, cfg.gemini_api_key = none →
        analyze_with_gemini cfg parse sector md resp
          = analysis_to_json (generate_mock_analysis sector md))
    ∧ (∀ e, analyze_with_gemini cfg parse sector md (Except.error e)
          = analysis_to_json (generate_mock_analysis sector md))
    ∧ (∀ t, parse (extract_json t) = none →
        analyze_with_gemini cfg parse sector md (Except.ok t)
          = analysis_to_json (generate_mock_analysis sector md))
    ∧ (∀ t j, cfg.gemini_api_key ≠ none → parse (extract_json t) = some j →
        analyze_with_gemini cfg parse sector md (Except.ok t) = j)
    ∧ (generate_mock_analysis sector md).market_trends.length = 5
    ∧ (generate_mock_analysis sector md).trade_opportunities.length = 2
    ∧ ((generate_mock_analysis sector md).trade_opportunities.getD 0
        defaultOpp).risk_level = "medium"
    ∧ ((generate_mock_analysis sector md).trade_opportunities.getD 0
        defaultOpp).time_horizon = "medium-term"
    ∧ ((generate_mock_analysis sector md).trade_opportunities.getD 1
        defaultOpp).risk_level = "low"
    ∧ ((generate_mock_analysis sector md).trade_opportunities.getD 1
        defaultOpp).time_horizon = "long-term"
    ∧ (generate_mock_analysis sector md).risks.length = 4
    ∧ (generate_mock_analysis sector md).summary
        = "The " ++ sector ++ " sector in India shows promising growth potential with increasing digital adoption and government support." := by
  refine ⟨?_, ?_, ?_, ?_, rfl, rfl, rfl, rfl, rfl, rfl, rfl, rfl⟩
  · intro resp h
    unfold analyze_with_gemini
    rw [h]
  · intro e
    unfold analyze_with_gemini
    cases cfg.gemini_api_key <;> rfl
  · intro t hp
    unfold analyze_with_gemini
    cases cfg.gemini_api_key with
    | none => rfl
    | some k => simp only [hp]
  · intro t j hk hp
    unfold analyze_with_gemini
    cases hkey : cfg.gemini_api_key with
    | none => exact absurd hkey hk
    | some k => simp only [hp]

/-- C3 witness: default settings (no credential) yield the mock dict; a
configured credential with a successfully parsed payload passes that
payload through. -/
theorem analyze_failure_mock_witness :
    analyze_with_gemini settings (fun _ => none) "technology" []
        (Except.ok "no json here")
      = analysis_to_json (generate_mock_analysis "technology" [])
    ∧ analyze_with_gemini settingsWithKey (fun _ => some (Json.str "s"))
        "technology" [] (Except.ok "text")
      = Json.str "s" :=
  ⟨(analyze_failure_mock settings (fun _ => none) "technology" []).1
      (Except.ok "no json here") rfl,
   (analyze_failure_mock settingsWithKey (fun _ => some (Json.str "s"))
      "technology" []).2.2.2.1 "text" (Json.str "s") (by decide) rfl⟩

/-- C9: in every assembled response, `key_news` holds exactly the first
`min 5 (length)` fetched market records, in fetch order: its length is
`min 5 (length)` and appending the remaining records reproduces the
fetched sequence unchanged. -/
theorem key_news_first_five (cfg : Settings) (sector : String)
    (searchOutcome : Except Unit (List RawResult))
    (parse : String → Option Analysis) (resp : Except Unit String)
    (ts : String) :
    (analyze_sector_pipeline cfg sector searchOutcome parse resp ts).key_news.length
      = min 5 (search_market_data sector searchOutcome).length
    ∧ (analyze_sector_pipeline cfg sector searchOutcome parse resp ts).key_news
        ++ (search_market_data sector searchOutcome).drop 5
      = search_market_data sector searchOutcome := by
  constructor
  · show ((search_market_data sector searchOutcome).take 5).length = _
    simp [List.length_take]
  · show (search_market_data sector searchOutcome).take 5 ++ _ = _
    exact List.take_append_drop 5 _

/-- C8: a requested sector whose lowercased form is not in the allowed
vocabulary is rejected with the 400 validation error listing the allowed
sectors, and the rate limiter store is left untouched (the pipeline is
never run). -/
theorem invalid_sector_rejected (st : RLState) (sector : String) (authOK : Bool)
    (username clientHost : String) (now : Nat)
    (searchOutcome : Except Unit (List RawResult))
    (parse : String → Option Analysis) (resp : Except Unit String) (ts : String)
    (h : settings.allowed_sectors.contains (str_lower sector) = false) :
    analyze_sector_endpoint settings st sector authOK username clientHost now
        searchOutcome parse resp ts
      = (Except.error ⟨400,
          "Sector not supported. Allowed sectors: pharmaceuticals, technology, agriculture, automobile, banking, renewable-energy, real-estate, manufacturing, retail",
          []⟩, st) := by
  unfold analyze_sector_endpoint
  rw [h]
  rfl

/-- C8 witness: the unsupported sector "crypto" is rejected and the
store is unchanged. -/
theorem invalid_sector_rejected_witness :
    analyze_sector_endpoint settings emptyState "crypto" true "guest"
        "127.0.0.1" 0 (Except.error ()) (fun _ => none) (Except.error ())
        "2024-01-01T00:00:00"
      = (Except.error ⟨400,
          "Sector not supported. Allowed sectors: pharmaceuticals, technology, agriculture, automobile, banking, renewable-energy, real-estate, manufacturing, retail",
          []⟩, emptyState) :=
  invalid_sector_rejected emptyState "crypto" true "guest" "127.0.0.1" 0
    (Except.error ()) (fun _ => none) (Except.error ()) "2024-01-01T00:00:00"
    (by decide)

/-- C6: the markdown report begins with the heading naming the
title-cased sector, and its "Key Market Information" section consists of
the rendered entries of the first `min 5 (length)` market records, taken
from the market-data sequence in input order. -/
theorem markdown_report_sections (sector : String) (analysis : Analysis)
    (market_data : List MarketData) (ts : String) :
    ∃ mid post : String,
      generate_markdown_report sector analysis market_data ts
        = "# Market Analysis Report: " ++ str_title sector ++ " Sector\n"
          ++ mid
          ++ "\n## Key Market Information\n"
          ++ String.join ((market_data.take 5).map mdNewsEntry)
          ++ "## Trade Opportunities\n"
          ++ post
      ∧ ((market_data.take 5).map mdNewsEntry).length
          = min 5 market_data.length
      ∧ market_data.take 5 ++ market_data.drop 5 = market_data := by
  refine ⟨"**Generated:** " ++ ts ++ "\n\n"
      ++ "## Executive Summary\n" ++ analysis.summary ++ "\n\n"
      ++ "## Market Trends\n"
      ++ String.join (analysis.market_trends.map mdTrendLine),
    String.join ((analysis.trade_opportunities.enumFrom 1).map
        (fun p => mdOppEntry p.1 p.2))
      ++ "## Potential Risks\n"
      ++ String.join (analysis.risks.map mdRiskLine)
      ++ "\n---\n"
      ++ "*Report generated by Trade Opportunities API. This is for informational purposes only.*",
    ?_, ?_, List.take_append_drop 5 market_data⟩
  · unfold generate_markdown_report
    simp only [String.append_assoc]
  · simp [List.length_take]

theorem isPrefixOf_of_take (sep l : List Char) (n : Nat)
    (h : sep.isPrefixOf (l.take n) = true) : sep.isPrefixOf l = true := by
  have h1 : sep <+: l.take n := List.isPrefixOf_iff_prefix.mp h
  have h2 : l.take n <+: l := ⟨l.drop n, List.take_append_drop n l⟩
  exact List.isPrefixOf_iff_prefix.mpr (h1.trans h2)

theorem findSub_isPrefixOf (sep : List Char) :
    ∀ (s : List Char) (i : Nat), findSub sep s = some i →
      sep.isPrefixOf (s.drop i) = true := by
  intro s
  induction s with
  | nil =>
    intro i h
    unfold findSub at h
    split at h
    · rename_i hp
      injection h with h1
      subst h1
      simpa using hp
    · cases h
  | cons c cs ih =>
    intro i h
    unfold findSub at h
    split at h
    · rename_i hp
      injection h with h1
      subst h1
      simpa using hp
    · cases hcs : findSub sep cs with
      | none => rw [hcs] at h; cases h
      | some j =>
        rw [hcs] at h
        simp only [Option.map] at h
        injection h with h1
        subst h1
        simpa [List.drop_succ_cons] using ih j hcs

theorem findSub_minimal (sep : List Char) :
    ∀ (s : List Char) (i : Nat), findSub sep s = some i →
      ∀ j, j < i → sep.isPrefixOf (s.drop j) = false := by
  intro s
  induction s with
  | nil =>
    intro i h j hj
    unfold findSub at h
    split at h
    · injection h with h1
      omega
    · cases h
  | cons c cs ih =>
    intro i h j hj
    unfold findSub at h
    split at h
    · injection h with h1
      omega
    · rename_i hp
      cases hcs : findSub sep cs with
      | none => rw [hcs] at h; cases h
      | some m =>
        rw [hcs] at h
        simp only [Option.map] at h
        injection h with h1
        subst h1
        cases j with
        | zero =>
          simp only [List.drop_zero]
          simp only [Bool.not_eq_true] at hp
          exact hp
        | succ j2 =>
          simpa [List.drop_succ_cons] using ih m hcs j2 (by omega)

theorem findSub_lt_length (sep : List Char) (hsep : sep ≠ []) :
    ∀ (s : List Char) (i : Nat), findSub sep s = some i → i < s.length := by
  intro s
  induction s with
  | nil =>
    intro i h
    unfold findSub at h
    split at h
    · rename_i hp
      exfalso
      cases sep with
      | nil => exact hsep rfl
      | cons a as => simp at hp
    · cases h
  | cons c cs ih =>
    intro i h
    unfold findSub at h
    split at h
    · injection h with h1
      subst h1
      simp
    · cases hcs : findSub sep cs with
      | none => rw [hcs] at h; cases h
      | some m =>
        rw [hcs] at h
        simp only [Option.map] at h
        injection h with h1
        subst h1
        have := ih m hcs
        simp only [List.length_cons]
        omega

theorem findSub_take_none (sep : List Char) (hsep : sep ≠ []) (s : List Char)
    (i : Nat) (h : findSub sep s = some i) :
    findSub sep (s.take i) = none := by
  cases hfind : findSub sep (s.take i) with
  | none => rfl
  | some j =>
    exfalso
    have hj_pref := findSub_isPrefixOf sep (s.take i) j hfind
    have hj_lt : j < (s.take i).length :=
      findSub_lt_length sep hsep (s.take i) j hfind
    have hj_lt_i : j < i := lt_of_lt_of_le hj_lt (List.length_take_le i s)
    rw [List.drop_take] at hj_pref
    have hpref_s := isPrefixOf_of_take sep (s.drop j) (i - j) hj_pref
    have hmin := findSub_minimal sep s i h j hj_lt_i
    rw [hpref_s] at hmin
    cases hmin

theorem upToFirst_idem (sep : List Char) (hsep : sep ≠ []) (s : List Char) :
    upToFirstL sep (upToFirstL sep s) = upToFirstL sep s := by
  cases hf : findSub sep s with
  | none =>
    have h1 : upToFirstL sep s = s := by unfold upToFirstL; rw [hf]
    rw [h1]
    exact h1
  | some i =>
    have h1 : upToFirstL sep s = s.take i := by unfold upToFirstL; rw [hf]
    have h2 : findSub sep (s.take i) = none := findSub_take_none sep hsep s i hf
    rw [h1]
    unfold upToFirstL
    rw [h2]

/-- C5 counterexample: on a response text in which a second "```json"
tag overlaps the fence that closes the first JSON-tagged block, the
code's split-based heuristic keeps a stray backtick, so the extracted
payload is not the contents of that block: the code yields "a`" where
the spec's block reading yields "a". -/
theorem extract_json_block_divergence :
    extract_jsonL ("```jsona````jsonz".data)
      ≠ spec_extract_jsonL ("```jsona````jsonz".data) := by decide

/-- C5 (amended): the extraction follows the spec's precedence and, for
every text in which the "```json" tag occurs at most once, yields
exactly what the spec describes — the contents of the JSON-tagged block,
else the contents of the first fenced block, else the raw text.  (When
"```json" reoccurs inside the first block region, the nested-split
heuristic may keep a fragment of the overlapping closing fence.) -/
theorem extract_json_spec_agreement (text : List Char)
    (hOnce : listContains jsonFenceL (afterFirstL jsonFenceL text) = false) :
    extract_jsonL text = spec_extract_jsonL text := by
  by_cases hj : listContains jsonFenceL text
  · have hrest : upToFirstL jsonFenceL (afterFirstL jsonFenceL text)
        = afterFirstL jsonFenceL text := by
      cases hf : findSub jsonFenceL (afterFirstL jsonFenceL text) with
      | none => unfold upToFirstL; rw [hf]
      | some i =>
        exfalso
        unfold listContains at hOnce
        rw [hf] at hOnce
        simp at hOnce
    unfold extract_jsonL spec_extract_jsonL block_contents
    rw [if_pos hj, if_pos hj, hrest]
  · by_cases hf : listContains fenceL text
    · have hidem := upToFirst_idem fenceL (by decide) (afterFirstL fenceL text)
      unfold extract_jsonL spec_extract_jsonL block_contents
      rw [if_neg hj, if_pos hf, if_neg hj, if_pos hf, hidem]
    · unfold extract_jsonL spec_extract_jsonL block_contents
      rw [if_neg hj, if_neg hf, if_neg hj, if_neg hf]

/-- C5 witness: a well-formed response with one JSON-tagged block. -/
theorem extract_json_spec_agreement_witness :
    extract_jsonL ("x```json42```y".data)
      = spec_extract_jsonL ("x```json42```y".data) :=
  extract_json_spec_agreement ("x```json42```y".data) (by decide)
